import Mathlib

/-!
Verification of the kraken torrent scheduler event handlers
(`lib/torrent/scheduler/events.go`) and the local-metadata store
(`client/store/local_metatdata.go`).

The scheduler's state and the `Apply` method of each event are embedded as
pure functions.  External effects performed by an `Apply` (closing a
connection, spawning a handshake task, sending on a subscriber channel,
emitting a network event) are recorded in an effect trace.  Components the
handlers call that live outside the two source files (ConnState,
AnnounceQueue, the per-torrent dispatcher, `timeutil.MostRecent`,
`torlib.NewPeerID`) are modelled from the specification.
-/

namespace Kraken

/-- Peer identifiers: torlib PeerIDs, here their string form. -/
abbrev PeerID := String

/-- Torrent infohashes. -/
abbrev InfoHash := Nat

/-- Modelled from the spec: `torlib.NewPeerID` (not under src/).  PeerIDs
are fixed-length identifiers; decoding a raw announce string fails exactly
when it is malformed (wrong length). -/
def NewPeerID (s : String) : Option PeerID :=
  if s.length = 20 then some s else none

/-- Modelled from the spec: `timeutil.MostRecent` of two instants. -/
def MostRecent2 (a b : Nat) : Nat := Nat.max a b

/-- Modelled from the spec: `timeutil.MostRecent` of three instants. -/
def MostRecent3 (a b c : Nat) : Nat := Nat.max a (Nat.max b c)

/-- Association-list lookup keyed by decidable equality. -/
def alookup {α β : Type} [DecidableEq α] (k : α) : List (α × β) → Option β
  | [] => none
  | (k', v) :: rest => if k = k' then some v else alookup k rest

/-- Torrent metadata returned by `Stat`. -/
structure TorrentInfo where
  name : String
  infoHash : InfoHash
  deriving DecidableEq, Repr

/-- A storage torrent: the fields the scheduler core reads. -/
structure Torrent where
  name : String
  infoHash : InfoHash
  deriving DecidableEq, Repr

/-- `storage.Torrent.Stat`. -/
def Torrent.stat (t : Torrent) : TorrentInfo := ⟨t.name, t.infoHash⟩

/-- An established connection: the attributes the core reads. -/
structure Conn where
  id : Nat
  peerID : PeerID
  infoHash : InfoHash
  createdAt : Nat
  deriving DecidableEq, Repr

/-- A half-handshaked inbound connection. -/
structure PendingConn where
  id : Nat
  peerID : PeerID
  infoHash : InfoHash
  name : String
  bitfield : List Bool
  deriving DecidableEq, Repr

/-- A peer as returned in an announce response (PeerID still undecoded). -/
structure PeerInfo where
  peerID : String
  ip : String
  port : Nat
  deriving DecidableEq, Repr

/-- Modelled from the spec: the per-torrent dispatcher state the scheduler
core reads (`CreatedAt`, `LastConnRemoved`, `LastGoodPieceReceived`,
`LastPieceSent`, `Empty`); the dispatcher itself is not under src/. -/
structure Dispatcher where
  id : Nat
  torrent : Torrent
  createdAt : Nat
  lastConnRemovedAt : Nat
  lastGoodPieceReceivedAt : List (PeerID × Nat)
  lastPieceSentAt : List (PeerID × Nat)
  isEmpty : Bool
  deriving DecidableEq, Repr

/-- `Dispatcher.LastGoodPieceReceived(peer)`: zero time when the peer was
never seen. -/
def Dispatcher.lastGoodPieceReceived (d : Dispatcher) (p : PeerID) : Nat :=
  (alookup p d.lastGoodPieceReceivedAt).getD 0

/-- `Dispatcher.LastPieceSent(peer)`. -/
def Dispatcher.lastPieceSent (d : Dispatcher) (p : PeerID) : Nat :=
  (alookup p d.lastPieceSentAt).getD 0

/-- `Dispatcher.LastConnRemoved()`. -/
def Dispatcher.lastConnRemoved (d : Dispatcher) : Nat := d.lastConnRemovedAt

/-- `Dispatcher.Empty()`. -/
def Dispatcher.empty (d : Dispatcher) : Bool := d.isEmpty

/-- Per-torrent control block. -/
structure TorrentControl where
  dispatcher : Dispatcher
  complete : Bool
  errors : List Nat
  deriving DecidableEq, Repr

/-- Scheduler configuration options used by the event handlers. -/
structure Config where
  maxGlobalEgress : Nat
  maxConnsPerTorrent : Nat
  blacklistCooldown : Nat
  idleConnTTL : Nat
  connTTL : Nat
  idleSeederTTL : Nat
  deriving DecidableEq, Repr

/-- Modelled from the spec: ConnState (not under src/) — the book of
pending and active connections, owning the blacklist. -/
structure ConnState where
  pending : List (PeerID × InfoHash)
  active : List Conn
  blacklist : List ((PeerID × InfoHash) × Nat)
  deriving DecidableEq, Repr

/-- Failure kinds of `ConnState.AddPending`; `torrentAtCapacity` embeds
`errTorrentAtCapacity`, which callers must be able to distinguish. -/
inductive PendingErr
  | torrentAtCapacity
  | globalAtCapacity
  | blacklisted
  | duplicate
  deriving DecidableEq, Repr

/-- Modelled from the spec: an entry is live while `now < expiry`
(stale when `now ≥ expiry`). -/
def ConnState.isBlacklisted (cs : ConnState) (now : Nat) (p : PeerID) (h : InfoHash) : Bool :=
  match alookup (p, h) cs.blacklist with
  | some expiry => decide (now < expiry)
  | none => false

/-- Modelled from the spec: `ConnState.Blacklist(peer, hash)` inserts the
pair with expiry `now + BlacklistCooldown`. -/
def ConnState.blacklistPair (cs : ConnState) (now cooldown : Nat) (p : PeerID) (h : InfoHash) : ConnState :=
  { cs with blacklist :=
      ((p, h), now + cooldown) :: cs.blacklist.filter (fun e => decide (e.1 ≠ (p, h))) }

/-- Modelled from the spec: `ConnState.DeleteActive(conn)` (no-op if absent). -/
def ConnState.deleteActive (cs : ConnState) (c : Conn) : ConnState :=
  { cs with active := cs.active.filter (fun c' => decide (c' ≠ c)) }

/-- Modelled from the spec: `ConnState.DeletePending(peer, hash)` (no-op if absent). -/
def ConnState.deletePending (cs : ConnState) (p : PeerID) (h : InfoHash) : ConnState :=
  { cs with pending := cs.pending.filter (fun q => decide (q ≠ (p, h))) }

/-- Pending plus active connections for one torrent. -/
def ConnState.numForTorrent (cs : ConnState) (h : InfoHash) : Nat :=
  (cs.pending.filter (fun q => decide (q.2 = h))).length
    + (cs.active.filter (fun c => decide (c.infoHash = h))).length

/-- Modelled from the spec: `ConnState.AddPending(peer, hash)` fails when
the pair is blacklisted, already pending or active, or a per-torrent or
global capacity is reached; otherwise it enters the pending set. -/
def ConnState.addPending (cs : ConnState) (cfg : Config) (now : Nat)
    (p : PeerID) (h : InfoHash) : Except PendingErr ConnState :=
  if cs.isBlacklisted now p h then .error .blacklisted
  else if decide ((p, h) ∈ cs.pending)
        || cs.active.any (fun c => decide (c.peerID = p ∧ c.infoHash = h)) then
    .error .duplicate
  else if cfg.maxConnsPerTorrent ≤ cs.numForTorrent h then .error .torrentAtCapacity
  else if cfg.maxGlobalEgress ≤ cs.pending.length + cs.active.length then .error .globalAtCapacity
  else .ok { cs with pending := (p, h) :: cs.pending }

/-- Modelled from the spec: AnnounceQueue (not under src/); dispatchers are
identified by id. -/
structure AnnounceQueue where
  readyQ : List Nat
  pendingQ : List Nat
  deriving DecidableEq, Repr

/-- `AnnounceQueue.Add(d)`: enqueue at the tail of ready. -/
def AnnounceQueue.add (q : AnnounceQueue) (d : Nat) : AnnounceQueue :=
  { q with readyQ := q.readyQ ++ [d] }

/-- `AnnounceQueue.Ready(d)`: return from pending-announce to the tail of
ready; idempotent if already ready. -/
def AnnounceQueue.markReady (q : AnnounceQueue) (d : Nat) : AnnounceQueue :=
  if decide (d ∈ q.readyQ) then q
  else { readyQ := q.readyQ ++ [d], pendingQ := q.pendingQ.filter (fun x => decide (x ≠ d)) }

/-- `AnnounceQueue.Done(d)`: remove from all internal state. -/
def AnnounceQueue.done (q : AnnounceQueue) (d : Nat) : AnnounceQueue :=
  { readyQ := q.readyQ.filter (fun x => decide (x ≠ d)),
    pendingQ := q.pendingQ.filter (fun x => decide (x ≠ d)) }

/-- `AnnounceQueue.Eject(d)`: unconditional removal. -/
def AnnounceQueue.eject (q : AnnounceQueue) (d : Nat) : AnnounceQueue :=
  { readyQ := q.readyQ.filter (fun x => decide (x ≠ d)),
    pendingQ := q.pendingQ.filter (fun x => decide (x ≠ d)) }

/-- The Scheduler state an `Apply` may read and write. -/
structure Scheduler where
  pctxPeerID : PeerID
  config : Config
  now : Nat
  connState : ConnState
  announceQueue : AnnounceQueue
  torrentControls : List (InfoHash × TorrentControl)
  nextDispatcherID : Nat
  deriving DecidableEq, Repr

/-- `s.torrentControls[h]`. -/
def lookupCtrl (s : Scheduler) (h : InfoHash) : Option TorrentControl :=
  alookup h s.torrentControls

/-- The torrent-cancelled error delivered to subscribers. -/
inductive SchedErr
  | torrentCancelled
  deriving DecidableEq, Repr

/-- Structured network events produced by the handlers. -/
inductive NetEvent
  | torrentComplete (h : InfoHash) (p : PeerID)
  | torrentCancelled (h : InfoHash) (p : PeerID)
  deriving DecidableEq, Repr

/-- External effects an `Apply` performs, in program order.  `sendErrc ch v`
records a send on subscriber channel `ch`: `none` is the nil (success)
value, `some torrentCancelled` is `ErrTorrentCancelled`. -/
inductive Effect
  | closePendingConn (pcId : Nat)
  | closeConn (c : Conn)
  | spawnIncomingHandshake (pc : PendingConn)
  | spawnOutgoingHandshake (pid : PeerID) (h : InfoHash) (addr : String) (info : TorrentInfo)
  | sendErrc (ch : Nat) (v : Option SchedErr)
  | tearDownDispatcher (d : Nat)
  | networkEvent (ev : NetEvent)
  deriving DecidableEq, Repr

/-- The scheduler events whose `Apply` methods are verified here. -/
inductive Event
  | closedConn (c : Conn)
  | failedHandshake (p : PeerID) (h : InfoHash)
  | incomingHandshake (pc : PendingConn)
  | announceResponse (h : InfoHash) (peers : List PeerInfo)
  | newTorrent (t : Torrent) (errc : Nat)
  | completedDispatcher (d : Dispatcher)
  | preemptionTick
  | cancelTorrent (name : String)
  deriving DecidableEq, Repr

/-- `closedConnEvent.Apply`: remove the conn from the active set, then
blacklist its (peer, hash) pair. -/
def closedConnApply (s : Scheduler) (c : Conn) : Scheduler × List Effect :=
  ({ s with connState :=
      ((s.connState.deleteActive c).blacklistPair s.now s.config.blacklistCooldown
        c.peerID c.infoHash) }, [])

/-- `failedHandshakeEvent.Apply`: remove the pair from pending, then
blacklist it. -/
def failedHandshakeApply (s : Scheduler) (p : PeerID) (h : InfoHash) : Scheduler × List Effect :=
  ({ s with connState :=
      ((s.connState.deletePending p h).blacklistPair s.now s.config.blacklistCooldown p h) }, [])

/-- `incomingHandshakeEvent.Apply`: admit the pair to pending and spawn the
handshake-establishing task, or close the pending conn on rejection. -/
def incomingHandshakeApply (s : Scheduler) (pc : PendingConn) : Scheduler × List Effect :=
  match s.connState.addPending s.config s.now pc.peerID pc.infoHash with
  | .error _ => (s, [Effect.closePendingConn pc.id])
  | .ok cs => ({ s with connState := cs }, [Effect.spawnIncomingHandshake pc])

/-- Messages the spawned incoming-handshake task can send back into the
event loop. -/
inductive TaskMsg
  | failedHandshake (p : PeerID) (h : InfoHash)
  | incomingConn (c : Conn) (bitfield : List Bool) (info : TorrentInfo)
  deriving DecidableEq, Repr

/-- Effects of the spawned incoming-handshake task. -/
inductive TaskEffect
  | closePC (pcId : Nat)
  | send (m : TaskMsg)
  deriving DecidableEq, Repr

/-- The goroutine spawned by `incomingHandshakeEvent.Apply`, as a function
of the outcomes of `torrentArchive.Stat(pc.Name())` and
`handshaker.Establish(pc, info)`. -/
def incomingHandshakeTask (pc : PendingConn) (statResult : Option TorrentInfo)
    (establishResult : Option Conn) : List TaskEffect :=
  match statResult with
  | none => [TaskEffect.closePC pc.id]
  | some info =>
    match establishResult with
    | none => [TaskEffect.closePC pc.id,
               TaskEffect.send (TaskMsg.failedHandshake pc.peerID pc.infoHash)]
    | some c => [TaskEffect.send (TaskMsg.incomingConn c pc.bitfield info)]

/-- The peer loop of `announceResponseEvent.Apply`: decode each returned
PeerID, skip our own peer, try `AddPending`; break on
`errTorrentAtCapacity`, skip on any other error, and spawn an outbound
handshake task for each pair entered into pending. -/
def announceLoop (s : Scheduler) (h : InfoHash) (ctrl : TorrentControl) :
    List PeerInfo → Scheduler × List Effect
  | [] => (s, [])
  | p :: rest =>
    match NewPeerID p.peerID with
    | none => announceLoop s h ctrl rest
    | some pid =>
      if pid = s.pctxPeerID then announceLoop s h ctrl rest
      else
        match s.connState.addPending s.config s.now pid h with
        | .error .torrentAtCapacity => (s, [])
        | .error _ => announceLoop s h ctrl rest
        | .ok cs =>
          let s' := { s with connState := cs }
          let r := announceLoop s' h ctrl rest
          (r.1, Effect.spawnOutgoingHandshake pid h (p.ip ++ ":" ++ toString p.port)
                  ctrl.dispatcher.torrent.stat :: r.2)

/-- `announceResponseEvent.Apply`. -/
def announceResponseApply (s : Scheduler) (h : InfoHash) (peers : List PeerInfo) :
    Scheduler × List Effect :=
  match lookupCtrl s h with
  | none => (s, [])
  | some ctrl =>
    let s1 := { s with announceQueue := s.announceQueue.markReady ctrl.dispatcher.id }
    if ctrl.complete then (s1, [])
    else announceLoop s1 h ctrl peers

/-- Replace the control stored under key `h`. -/
def updateCtrl (s : Scheduler) (h : InfoHash) (ctrl : TorrentControl) : Scheduler :=
  { s with torrentControls :=
      s.torrentControls.map (fun p => if p.1 = h then (p.1, ctrl) else p) }

/-- Modelled from the spec: `Scheduler.initTorrentControl` (not under src/)
builds a fresh dispatcher for the torrent, adds it to the announce queue
and enters an incomplete control into the map. -/
def initTorrentControl (s : Scheduler) (t : Torrent) : Scheduler × TorrentControl :=
  let d : Dispatcher :=
    { id := s.nextDispatcherID, torrent := t, createdAt := s.now,
      lastConnRemovedAt := 0, lastGoodPieceReceivedAt := [],
      lastPieceSentAt := [], isEmpty := true }
  let ctrl : TorrentControl := { dispatcher := d, complete := false, errors := [] }
  ({ s with nextDispatcherID := s.nextDispatcherID + 1,
            announceQueue := s.announceQueue.add d.id,
            torrentControls := s.torrentControls ++ [(t.infoHash, ctrl)] }, ctrl)

/-- `newTorrentEvent.Apply`. -/
def newTorrentApply (s : Scheduler) (t : Torrent) (errc : Nat) : Scheduler × List Effect :=
  let r :=
    match lookupCtrl s t.infoHash with
    | some ctrl => (s, ctrl)
    | none => initTorrentControl s t
  if r.2.complete then (r.1, [Effect.sendErrc errc none])
  else (updateCtrl r.1 t.infoHash { r.2 with errors := r.2.errors ++ [errc] }, [])

/-- `completedDispatcherEvent.Apply`: final-announce bookkeeping, signal
every subscriber with success and mark the control complete.  (As in the
source, `Errors` is not cleared.) -/
def completedDispatcherApply (s : Scheduler) (d : Dispatcher) : Scheduler × List Effect :=
  let h := d.torrent.infoHash
  let s1 := { s with announceQueue := s.announceQueue.done d.id }
  match lookupCtrl s1 h with
  | none => (s1, [])
  | some ctrl =>
    (updateCtrl s1 h { ctrl with complete := true },
     ctrl.errors.map (fun ch => Effect.sendErrc ch none)
       ++ [Effect.networkEvent (NetEvent.torrentComplete h s.pctxPeerID)])

/-- The active-conn sweep of `preemptionTickEvent.Apply`: close conns with
no control (invariant violation), idle conns, and expired conns. -/
def connPreemptLoop (s : Scheduler) : List Conn → List Effect
  | [] => []
  | c :: rest =>
    let tailEffs := connPreemptLoop s rest
    match lookupCtrl s c.infoHash with
    | none => Effect.closeConn c :: tailEffs
    | some ctrl =>
      let lastProgress := MostRecent3 c.createdAt
        (ctrl.dispatcher.lastGoodPieceReceived c.peerID)
        (ctrl.dispatcher.lastPieceSent c.peerID)
      if s.config.idleConnTTL < s.now - lastProgress then Effect.closeConn c :: tailEffs
      else if s.config.connTTL < s.now - c.createdAt then Effect.closeConn c :: tailEffs
      else tailEffs

/-- Whether the control-sweep of `preemptionTickEvent.Apply` removes the
control: complete, empty dispatcher, and idle for at least
`IdleSeederTTL`. -/
def seederExpired (s : Scheduler) (ctrl : TorrentControl) : Bool :=
  ctrl.complete && ctrl.dispatcher.empty
    && decide (s.config.idleSeederTTL
        ≤ s.now - MostRecent2 ctrl.dispatcher.createdAt ctrl.dispatcher.lastConnRemoved)

/-- `preemptionTickEvent.Apply`. -/
def preemptionTickApply (s : Scheduler) : Scheduler × List Effect :=
  let effs := connPreemptLoop s s.connState.active
  ({ s with torrentControls := s.torrentControls.filter (fun p => !seederExpired s p.2) },
   effs)

/-- Remove the map entry stored under key `h`. -/
def removeKey (l : List (InfoHash × TorrentControl)) (h : InfoHash) :
    List (InfoHash × TorrentControl) :=
  l.filter (fun p => decide (p.1 ≠ h))

/-- The scan of `cancelTorrentEvent.Apply`: first control whose torrent
name matches is torn down, ejected, its subscribers signalled with
`ErrTorrentCancelled`, and removed; the loop then breaks. -/
def cancelLoop (s : Scheduler) (name : String) :
    List (InfoHash × TorrentControl) → Scheduler × List Effect
  | [] => (s, [])
  | (_, ctrl) :: rest =>
    if ctrl.dispatcher.torrent.name = name then
      let h := ctrl.dispatcher.torrent.infoHash
      ({ s with announceQueue := s.announceQueue.eject ctrl.dispatcher.id,
                torrentControls := removeKey s.torrentControls h },
       Effect.tearDownDispatcher ctrl.dispatcher.id ::
         ctrl.errors.map (fun ch => Effect.sendErrc ch (some SchedErr.torrentCancelled))
           ++ [Effect.networkEvent (NetEvent.torrentCancelled h s.pctxPeerID)])
    else cancelLoop s name rest

/-- `cancelTorrentEvent.Apply`. -/
def cancelTorrentApply (s : Scheduler) (name : String) : Scheduler × List Effect :=
  cancelLoop s name s.torrentControls

/-- Dispatch an event to its `Apply`. -/
def applyEvent : Event → Scheduler → Scheduler × List Effect
  | Event.closedConn c, s => closedConnApply s c
  | Event.failedHandshake p h, s => failedHandshakeApply s p h
  | Event.incomingHandshake pc, s => incomingHandshakeApply s pc
  | Event.announceResponse h peers, s => announceResponseApply s h peers
  | Event.newTorrent t errc, s => newTorrentApply s t errc
  | Event.completedDispatcher d, s => completedDispatcherApply s d
  | Event.preemptionTick, s => preemptionTickApply s
  | Event.cancelTorrent name, s => cancelTorrentApply s name

/-- Apply a sequence of events, concatenating the effect traces. -/
def applyEvents (s : Scheduler) : List Event → Scheduler × List Effect
  | [] => (s, [])
  | e :: rest =>
    let r := applyEvent e s
    let r' := applyEvents r.1 rest
    (r'.1, r.2 ++ r'.2)

/-- The (pid, hash) pairs for which an outbound handshake task was spawned,
in trace order. -/
def spawnedPairs (effs : List Effect) : List (PeerID × InfoHash) :=
  effs.filterMap (fun e =>
    match e with
    | Effect.spawnOutgoingHandshake pid h _ _ => some (pid, h)
    | _ => none)

/-- Whether an effect is the spawning of an outbound handshake task. -/
def isOutboundSpawn : Effect → Bool
  | Effect.spawnOutgoingHandshake _ _ _ _ => true
  | _ => false

/-- Number of values sent on subscriber channel `ch` in a trace. -/
def countErrcSends (effs : List Effect) (ch : Nat) : Nat :=
  (effs.filter (fun e =>
    match e with
    | Effect.sendErrc c _ => decide (c = ch)
    | _ => false)).length

/-- The announce-response peer loop as the specification's words describe
it: skip a peer whose PeerID is this peer's own ID, skip on decode error,
otherwise try `AddPending`; on `ErrTorrentAtCapacity` break, on any other
error continue; spawn an outbound handshake for every success. -/
def announceLoopClaim (s : Scheduler) (h : InfoHash) (ctrl : TorrentControl) :
    List PeerInfo → Scheduler × List Effect
  | [] => (s, [])
  | p :: rest =>
    if NewPeerID p.peerID = some s.pctxPeerID then announceLoopClaim s h ctrl rest
    else
      match NewPeerID p.peerID with
      | none => announceLoopClaim s h ctrl rest
      | some pid =>
        match s.connState.addPending s.config s.now pid h with
        | .error .torrentAtCapacity => (s, [])
        | .error _ => announceLoopClaim s h ctrl rest
        | .ok cs =>
          let s' := { s with connState := cs }
          let r := announceLoopClaim s' h ctrl rest
          (r.1, Effect.spawnOutgoingHandshake pid h (p.ip ++ ":" ++ toString p.port)
                  ctrl.dispatcher.torrent.stat :: r.2)

/-- The preemption condition of the claim: no progress for longer than
`IdleConnTTL`, or alive for longer than `ConnTTL`. -/
def connPreemptCond (s : Scheduler) (ctrl : TorrentControl) (c : Conn) : Prop :=
  s.config.idleConnTTL <
      s.now - Nat.max c.createdAt
        (Nat.max (ctrl.dispatcher.lastGoodPieceReceived c.peerID)
          (ctrl.dispatcher.lastPieceSent c.peerID))
    ∨ s.config.connTTL < s.now - c.createdAt

/-! ## The local-metadata store (`client/store/local_metatdata.go`)

A metadata file is modelled as `Option (List UInt8)`: `none` when the file
does not exist.  The `*os.File` read/write offset matters in
`startedAt.set`: after reading the old content the offset sits at the old
end of file, and the source never seeks back to 0 before writing. -/

/-- File contents as a byte list. -/
abbrev FileData := List UInt8

/-- `compareMetadata` from the source: equal lengths and equal bytes. -/
def compareMetadata (d1 d2 : List UInt8) : Bool :=
  if d1.length ≠ d2.length then false
  else (d1.zip d2).all fun q => decide (q.1 = q.2)

/-- `File.Truncate(n)`: shrinking keeps the prefix, growing zero-fills. -/
def truncateFile (f : List UInt8) (n : Nat) : List UInt8 :=
  f.take n ++ List.replicate (n - f.length) 0

/-- A write of `content` at file offset `off`: any hole past the current
end of file reads back as zeros. -/
def writeAtOffset (f : List UInt8) (off : Nat) (content : List UInt8) : List UInt8 :=
  (f.take off ++ List.replicate (off - f.length) 0) ++ content
    ++ f.drop (off + content.length)

/-- `startedAt.set`: create the file when absent; otherwise read the old
content (leaving the offset at its end), return false when unchanged, else
truncate when the lengths differ and write at the current offset. -/
def startedAt.set (file : Option FileData) (content : FileData) : Option FileData × Bool :=
  match file with
  | none => (some content, true)
  | some data =>
    if compareMetadata data content then (some data, false)
    else
      let f1 := if data.length ≠ content.length then truncateFile data content.length else data
      (some (writeAtOffset f1 data.length content), true)

/-- `startedAt.get`: read the whole file; fails when it does not exist. -/
def startedAt.get (file : Option FileData) : Option FileData := file

/-! ## Concrete fixtures -/

/-- A small configuration. -/
def cfg0 : Config :=
  { maxGlobalEgress := 10, maxConnsPerTorrent := 10, blacklistCooldown := 30,
    idleConnTTL := 5, connTTL := 100, idleSeederTTL := 5 }

/-- A torrent named "t" with infohash 1. -/
def t0 : Torrent := { name := "t", infoHash := 1 }

/-- The dispatcher for `t0`. -/
def d0 : Dispatcher :=
  { id := 0, torrent := t0, createdAt := 0, lastConnRemovedAt := 0,
    lastGoodPieceReceivedAt := [], lastPieceSentAt := [], isEmpty := true }

/-- An incomplete control for `t0` with no subscribers. -/
def ctrl0 : TorrentControl := { dispatcher := d0, complete := false, errors := [] }

/-- A complete control for `t0`. -/
def ctrlC : TorrentControl := { dispatcher := d0, complete := true, errors := [] }

/-- This peer's own ID. -/
def ownID : PeerID := "OOOOOOOOOOOOOOOOOOOO"

/-- An announce-response peer with a well-formed PeerID. -/
def p1 : PeerInfo := { peerID := "11111111111111111111", ip := "ip1", port := 1 }

/-- A half-handshaked inbound connection. -/
def pc0 : PendingConn :=
  { id := 0, peerID := "11111111111111111111", infoHash := 1, name := "t", bitfield := [] }

/-- An active connection created at time 0. -/
def c6 : Conn := { id := 0, peerID := "11111111111111111111", infoHash := 1, createdAt := 0 }

/-- A scheduler at time 10 tracking `t0` (incomplete, no connections). -/
def s0 : Scheduler :=
  { pctxPeerID := ownID, config := cfg0, now := 10,
    connState := { pending := [], active := [], blacklist := [] },
    announceQueue := { readyQ := [], pendingQ := [0] },
    torrentControls := [(1, ctrl0)], nextDispatcherID := 1 }

/-- `s0` with one active connection `c6`, idle since time 0. -/
def s6 : Scheduler :=
  { s0 with connState := { pending := [], active := [c6], blacklist := [] } }

/-- `s0` with the control for `t0` already complete. -/
def sC : Scheduler := { s0 with torrentControls := [(1, ctrlC)] }

/-! ## Theorems -/

/-- Looking up the key at the head of an association list. -/
theorem alookup_cons_self {α β : Type} [DecidableEq α] (k : α) (v : β) (l : List (α × β)) :
    alookup k ((k, v) :: l) = some v := by
  simp [alookup]

/-- Unfolding lemma for `alookup` on a cons. -/
theorem alookup_cons {α β : Type} [DecidableEq α] (k k' : α) (v : β) (l : List (α × β)) :
    alookup k ((k', v) :: l) = if k = k' then some v else alookup k l := rfl

/-- C4.  `closedConnEvent.Apply` removes exactly the closed connection from
the active set and blacklists its (PeerID, InfoHash) pair with expiry
`now + BlacklistCooldown`, for every connection (the model does not
distinguish clean closes). -/
theorem closedConn_blacklists (s : Scheduler) (c : Conn) :
    (∀ c' : Conn,
        c' ∈ (applyEvent (Event.closedConn c) s).1.connState.active ↔
          (c' ∈ s.connState.active ∧ c' ≠ c))
    ∧ alookup (c.peerID, c.infoHash) (applyEvent (Event.closedConn c) s).1.connState.blacklist
        = some (s.now + s.config.blacklistCooldown) := by
  constructor
  · intro c'
    simp [applyEvent, closedConnApply, ConnState.blacklistPair, ConnState.deleteActive,
      List.mem_filter]
  · simp [applyEvent, closedConnApply, ConnState.blacklistPair, ConnState.deleteActive,
      alookup]

/-- C7.  `preemptionTickEvent.Apply` removes a control from the map exactly
when it is complete, its dispatcher is empty, and it has been idle for at
least `IdleSeederTTL` (inclusive at exactly the TTL). -/
theorem preemption_removes_idle_seeders (s : Scheduler) (h : InfoHash) (ctrl : TorrentControl) :
    (h, ctrl) ∈ (applyEvent Event.preemptionTick s).1.torrentControls ↔
      ((h, ctrl) ∈ s.torrentControls ∧
        ¬(ctrl.complete = true ∧ ctrl.dispatcher.empty = true ∧
            s.config.idleSeederTTL
              ≤ s.now - Nat.max ctrl.dispatcher.createdAt ctrl.dispatcher.lastConnRemoved)) := by
  simp [applyEvent, preemptionTickApply, seederExpired, MostRecent2, List.mem_filter,
    and_assoc]
  intro _
  cases ctrl.complete <;> cases ctrl.dispatcher.empty <;> simp

/-- C3.  The task spawned by `incomingHandshakeEvent.Apply` when the
torrent-info lookup fails only closes the pending connection: contrary to
the claim, no `failedHandshake` event is sent, so the pending-set entry
added by `AddPending` is not removed on this path. -/
theorem stat_failure_closes_without_event :
    incomingHandshakeTask pc0 none none = [TaskEffect.closePC 0]
    ∧ TaskEffect.send (TaskMsg.failedHandshake pc0.peerID pc0.infoHash)
        ∉ incomingHandshakeTask pc0 none none := by
  constructor
  · rfl
  · decide

/-- C2.  The subscriber channel registered by a `newTorrent` event receives
two values when the torrent completes and is later cancelled:
`completedDispatcherEvent.Apply` sends nil but does not clear
`ctrl.Errors`, so `cancelTorrentEvent.Apply` sends `ErrTorrentCancelled`
to the same channel again. -/
theorem subscriber_channel_double_send :
    countErrcSends (applyEvents s0
      [Event.newTorrent t0 7, Event.completedDispatcher d0, Event.cancelTorrent "t"]).2 7
      = 2 := by
  decide

/-- C5 counterexample.  After a `completedDispatcher` event for infohash 1,
a later announce response for infohash 1 does open a new outbound
connection: the idle complete control is removed by a preemption tick, a
`newTorrent` event re-creates it incomplete, and the next announce
response spawns an outbound handshake. -/
theorem announce_after_complete_readd_opens_conn :
    (applyEvents s0
        [Event.completedDispatcher d0, Event.preemptionTick,
         Event.newTorrent t0 9, Event.announceResponse 1 [p1]]).2.filter isOutboundSpawn
      = [Effect.spawnOutgoingHandshake "11111111111111111111" 1 "ip1:1" t0.stat] := by
  decide

/-- C10.  `startedAt.set` on an existing file returns true but does not
leave the file equal to `content`: the write lands at the offset left
after reading the old data (no seek to 0), so an immediately following
`startedAt.get` returns the old byte followed by the new content. -/
theorem startedAt_set_existing_no_seek :
    startedAt.set (some [48]) [49, 50] = (some [48, 49, 50], true)
    ∧ startedAt.get (startedAt.set (some [48]) [49, 50]).1 ≠ some [49, 50] := by
  constructor
  · rfl
  · decide

/-- The cancel scan acts on the first name match of the scanned list, and
changes nothing when no entry matches. -/
theorem cancelLoop_find (s : Scheduler) (name : String)
    (l : List (InfoHash × TorrentControl)) :
    match l.find? (fun p => decide (p.2.dispatcher.torrent.name = name)) with
    | none => cancelLoop s name l = (s, [])
    | some pr =>
        cancelLoop s name l =
          ({ s with announceQueue := s.announceQueue.eject pr.2.dispatcher.id,
                    torrentControls := removeKey s.torrentControls pr.2.dispatcher.torrent.infoHash },
           Effect.tearDownDispatcher pr.2.dispatcher.id ::
             pr.2.errors.map (fun ch => Effect.sendErrc ch (some SchedErr.torrentCancelled))
               ++ [Effect.networkEvent
                     (NetEvent.torrentCancelled pr.2.dispatcher.torrent.infoHash s.pctxPeerID)]) := by
  induction l with
  | nil => simp [cancelLoop]
  | cons head rest ih =>
    obtain ⟨k, ctrl⟩ := head
    by_cases hm : ctrl.dispatcher.torrent.name = name
    · rw [List.find?_cons_of_pos _ (by simpa using hm)]
      simp [cancelLoop, hm]
    · rw [List.find?_cons_of_neg _ (by simpa using hm)]
      simpa [cancelLoop, hm] using ih

/-- C8.  `cancelTorrentEvent.Apply` acts on at most one control — the first
whose torrent name matches — tearing down its dispatcher, ejecting it from
the announce queue, signalling every subscriber with `ErrTorrentCancelled`,
removing the control from the map and emitting a torrent-cancelled network
event; when no name matches, nothing changes. -/
theorem cancelTorrent_first_match (s : Scheduler) (name : String) :
    match s.torrentControls.find? (fun p => decide (p.2.dispatcher.torrent.name = name)) with
    | none => applyEvent (Event.cancelTorrent name) s = (s, [])
    | some pr =>
        applyEvent (Event.cancelTorrent name) s =
          ({ s with announceQueue := s.announceQueue.eject pr.2.dispatcher.id,
                    torrentControls := removeKey s.torrentControls pr.2.dispatcher.torrent.infoHash },
           Effect.tearDownDispatcher pr.2.dispatcher.id ::
             pr.2.errors.map (fun ch => Effect.sendErrc ch (some SchedErr.torrentCancelled))
               ++ [Effect.networkEvent
                     (NetEvent.torrentCancelled pr.2.dispatcher.torrent.infoHash s.pctxPeerID)]) := by
  have h := cancelLoop_find s name s.torrentControls
  simpa [applyEvent, cancelTorrentApply] using h

/-- A successful `AddPending` enters exactly the given pair into the
pending set. -/
theorem addPending_ok_pending (cs : ConnState) (cfg : Config) (now : Nat)
    (p : PeerID) (h : InfoHash) (cs' : ConnState)
    (hok : cs.addPending cfg now p h = .ok cs') :
    cs'.pending = (p, h) :: cs.pending := by
  unfold ConnState.addPending at hok
  split_ifs at hok <;> cases hok <;> rfl

/-- The source peer loop coincides with the claim's description of it. -/
theorem announceLoop_eq_claim (h : InfoHash) (ctrl : TorrentControl) :
    ∀ (peers : List PeerInfo) (s : Scheduler),
      announceLoop s h ctrl peers = announceLoopClaim s h ctrl peers := by
  intro peers
  induction peers with
  | nil => intro s; rfl
  | cons p rest ih =>
    intro s
    rw [announceLoop, announceLoopClaim]
    cases hd : NewPeerID p.peerID with
    | none => simp [ih]
    | some pid =>
      by_cases hown : pid = s.pctxPeerID
      · simp [hown, ih]
      · cases hap : s.connState.addPending s.config s.now pid h with
        | error e => cases e <;> simp [hown, hap, ih]
        | ok cs => simp [hown, hap, ih]

/-- Every pair the loop enters into pending corresponds to one spawned
outbound handshake task, and vice versa. -/
theorem announceLoop_pending_spawns (h : InfoHash) (ctrl : TorrentControl) :
    ∀ (peers : List PeerInfo) (s : Scheduler),
      (announceLoop s h ctrl peers).1.connState.pending
        = (spawnedPairs (announceLoop s h ctrl peers).2).reverse ++ s.connState.pending := by
  intro peers
  induction peers with
  | nil => intro s; simp [announceLoop, spawnedPairs]
  | cons p rest ih =>
    intro s
    rw [announceLoop]
    cases hd : NewPeerID p.peerID with
    | none => simp [ih]
    | some pid =>
      by_cases hown : pid = s.pctxPeerID
      · simp [hown, ih]
      · cases hap : s.connState.addPending s.config s.now pid h with
        | error e => cases e <;> simp [hown, hap, ih, spawnedPairs]
        | ok cs =>
          have hpend := addPending_ok_pending _ _ _ _ _ _ hap
          simp [hown, hap, ih, spawnedPairs, hpend, List.append_assoc]

/-- C1.  For an announce response whose control is present and not
complete, `Apply` marks the dispatcher ready and runs the peer loop exactly
as the claim describes it (skip own ID, skip undecodable IDs, `AddPending`,
break on `ErrTorrentAtCapacity`, continue on other errors), and the pairs
entered into pending are exactly those for which an outbound handshake task
was spawned. -/
theorem announceResponse_iterates_peers (s : Scheduler) (h : InfoHash)
    (peers : List PeerInfo) (ctrl : TorrentControl)
    (h1 : lookupCtrl s h = some ctrl) (h2 : ctrl.complete = false) :
    applyEvent (Event.announceResponse h peers) s
      = announceLoopClaim
          { s with announceQueue := s.announceQueue.markReady ctrl.dispatcher.id }
          h ctrl peers
    ∧ (applyEvent (Event.announceResponse h peers) s).1.connState.pending
        = (spawnedPairs (applyEvent (Event.announceResponse h peers) s).2).reverse
            ++ s.connState.pending := by
  have happ : applyEvent (Event.announceResponse h peers) s
      = announceLoop
          { s with announceQueue := s.announceQueue.markReady ctrl.dispatcher.id }
          h ctrl peers := by
    simp [applyEvent, announceResponseApply, h1, h2]
  constructor
  · rw [happ, announceLoop_eq_claim]
  · rw [happ, announceLoop_pending_spawns]

/-- C1 witness: a concrete incomplete control and announce response. -/
theorem announceResponse_iterates_peers_witness :
    lookupCtrl s0 1 = some ctrl0 ∧ ctrl0.complete = false ∧
      (applyEvent (Event.announceResponse 1 [p1]) s0
          = announceLoopClaim
              { s0 with announceQueue := s0.announceQueue.markReady ctrl0.dispatcher.id }
              1 ctrl0 [p1]
        ∧ (applyEvent (Event.announceResponse 1 [p1]) s0).1.connState.pending
            = (spawnedPairs (applyEvent (Event.announceResponse 1 [p1]) s0).2).reverse
                ++ s0.connState.pending) :=
  ⟨rfl, rfl, announceResponse_iterates_peers s0 1 [p1] ctrl0 rfl rfl⟩

/-- The active-conn sweep closes exactly the conns meeting the idle or
expiry condition, when every active conn has a control. -/
theorem connPreemptLoop_mem (s : Scheduler) :
    ∀ l : List Conn, (∀ c ∈ l, (lookupCtrl s c.infoHash).isSome) →
      ∀ c : Conn,
        Effect.closeConn c ∈ connPreemptLoop s l ↔
          (c ∈ l ∧ ∃ ctrl, lookupCtrl s c.infoHash = some ctrl ∧ connPreemptCond s ctrl c) := by
  intro l
  induction l with
  | nil => intro _ c; simp [connPreemptLoop]
  | cons c0 rest ih =>
    intro H c
    have h0 : (lookupCtrl s c0.infoHash).isSome := H c0 (List.mem_cons_self c0 rest)
    obtain ⟨ctrl0, hc0⟩ := Option.isSome_iff_exists.mp h0
    have Hrest : ∀ c' ∈ rest, (lookupCtrl s c'.infoHash).isSome :=
      fun c' hm => H c' (List.mem_cons_of_mem c0 hm)
    have hrec := ih Hrest c
    rw [connPreemptLoop, hc0]
    dsimp only
    by_cases hidle : s.config.idleConnTTL <
        s.now - MostRecent3 c0.createdAt (ctrl0.dispatcher.lastGoodPieceReceived c0.peerID)
          (ctrl0.dispatcher.lastPieceSent c0.peerID)
    · rw [if_pos hidle]
      constructor
      · intro hmem
        rcases List.mem_cons.mp hmem with heq | hmem'
        · obtain rfl : c = c0 := Effect.closeConn.inj heq
          refine ⟨List.mem_cons_self _ _, ctrl0, hc0, Or.inl ?_⟩
          simpa [MostRecent3] using hidle
        · obtain ⟨hm, hx⟩ := hrec.mp hmem'
          exact ⟨List.mem_cons_of_mem _ hm, hx⟩
      · rintro ⟨hm, ctrl, hl, hcond⟩
        rcases List.mem_cons.mp hm with heq | hm'
        · subst heq; exact List.mem_cons_self _ _
        · exact List.mem_cons_of_mem _ (hrec.mpr ⟨hm', ctrl, hl, hcond⟩)
    · rw [if_neg hidle]
      by_cases hexp : s.config.connTTL < s.now - c0.createdAt
      · rw [if_pos hexp]
        constructor
        · intro hmem
          rcases List.mem_cons.mp hmem with heq | hmem'
          · obtain rfl : c = c0 := Effect.closeConn.inj heq
            exact ⟨List.mem_cons_self _ _, ctrl0, hc0, Or.inr hexp⟩
          · obtain ⟨hm, hx⟩ := hrec.mp hmem'
            exact ⟨List.mem_cons_of_mem _ hm, hx⟩
        · rintro ⟨hm, ctrl, hl, hcond⟩
          rcases List.mem_cons.mp hm with heq | hm'
          · subst heq; exact List.mem_cons_self _ _
          · exact List.mem_cons_of_mem _ (hrec.mpr ⟨hm', ctrl, hl, hcond⟩)
      · rw [if_neg hexp, hrec]
        constructor
        · rintro ⟨hm, hx⟩
          exact ⟨List.mem_cons_of_mem _ hm, hx⟩
        · rintro ⟨hm, ctrl, hl, hcond⟩
          rcases List.mem_cons.mp hm with heq | hm'
          · subst heq
            rw [hc0] at hl
            obtain rfl : ctrl0 = ctrl := Option.some.inj hl
            have hno : ¬ connPreemptCond s ctrl0 c := by
              simp only [MostRecent3] at hidle
              simp only [connPreemptCond]
              exact not_or.mpr ⟨hidle, hexp⟩
            exact absurd hcond hno
          · exact ⟨hm', ctrl, hl, hcond⟩

/-- C6.  A `preemptionTick` closes exactly the active connections whose
last progress (the most recent of creation, last good piece received and
last piece sent) is older than `IdleConnTTL` or whose age exceeds
`ConnTTL`, and no other active connection, assuming every active conn's
infohash has a control (ConnState invariant 5). -/
theorem preemption_closes_exactly (s : Scheduler)
    (H : ∀ c ∈ s.connState.active, (lookupCtrl s c.infoHash).isSome) (c : Conn) :
    Effect.closeConn c ∈ (applyEvent Event.preemptionTick s).2 ↔
      (c ∈ s.connState.active ∧
        ∃ ctrl, lookupCtrl s c.infoHash = some ctrl ∧ connPreemptCond s ctrl c) := by
  have h := connPreemptLoop_mem s s.connState.active H c
  simpa [applyEvent, preemptionTickApply] using h

/-- C6 witness: a concrete idle connection is closed by the tick. -/
theorem preemption_closes_exactly_witness :
    (∀ c ∈ s6.connState.active, (lookupCtrl s6 c.infoHash).isSome) ∧
      Effect.closeConn c6 ∈ (applyEvent Event.preemptionTick s6).2 :=
  ⟨by decide, (preemption_closes_exactly s6 (by decide) c6).mpr
      ⟨by decide, ctrl0, rfl, Or.inl (by decide)⟩⟩

/-- A successful association-list lookup yields a member. -/
theorem alookup_mem {α β : Type} [DecidableEq α] (k : α) (v : β) :
    ∀ l : List (α × β), alookup k l = some v → (k, v) ∈ l := by
  intro l
  induction l with
  | nil => intro h; simp [alookup] at h
  | cons p rest ih =>
    obtain ⟨k', v'⟩ := p
    intro h
    by_cases hk : k = k'
    · subst hk
      rw [alookup, if_pos rfl] at h
      obtain rfl := Option.some.inj h
      exact List.mem_cons_self _ _
    · rw [alookup, if_neg hk] at h
      exact List.mem_cons_of_mem _ (ih h)

/-- Members of a keyed map-update are old members or carry the new value. -/
theorem mem_map_update {β : Type} (l : List (InfoHash × β)) (hk : InfoHash) (v : β)
    (h' : InfoHash) (w : β)
    (hm : (h', w) ∈ l.map (fun p => if p.1 = hk then (p.1, v) else p)) :
    (h', w) ∈ l ∨ (h' = hk ∧ w = v) := by
  obtain ⟨a, hal, hfa⟩ := List.mem_map.mp hm
  by_cases hka : a.1 = hk
  · rw [if_pos hka] at hfa
    cases hfa
    exact Or.inr ⟨hka, rfl⟩
  · rw [if_neg hka] at hfa
    subst hfa
    exact Or.inl hal

/-- A keyed map-update rewrites exactly the looked-up value. -/
theorem alookup_map_update {β : Type} (hk : InfoHash) (v : β) :
    ∀ l : List (InfoHash × β),
      alookup hk (l.map (fun p => if p.1 = hk then (p.1, v) else p))
        = (alookup hk l).map (fun _ => v) := by
  intro l
  induction l with
  | nil => rfl
  | cons p rest ih =>
    obtain ⟨k, w⟩ := p
    simp only [List.map_cons]
    try dsimp only
    by_cases hkk : k = hk
    · subst hkk
      rw [if_pos rfl, alookup_cons, alookup_cons, if_pos rfl, if_pos rfl]
      rfl
    · rw [if_neg hkk, alookup_cons, alookup_cons, if_neg (Ne.symm hkk),
        if_neg (Ne.symm hkk), ih]

/-- The announce peer loop never touches the torrent-control map. -/
theorem announceLoop_controls (h : InfoHash) (ctrl : TorrentControl) :
    ∀ (peers : List PeerInfo) (s : Scheduler),
      (announceLoop s h ctrl peers).1.torrentControls = s.torrentControls := by
  intro peers
  induction peers with
  | nil => intro s; rfl
  | cons p rest ih =>
    intro s
    rw [announceLoop]
    cases hd : NewPeerID p.peerID with
    | none => simp [ih]
    | some pid =>
      by_cases hown : pid = s.pctxPeerID
      · simp [hown, ih]
      · cases hap : s.connState.addPending s.config s.now pid h with
        | error e => cases e <;> simp [hown, hap, ih]
        | ok cs => simp [hown, hap, ih]

/-- The cancel scan only ever removes control-map entries. -/
theorem cancelLoop_controls_subset (s : Scheduler) (name : String) :
    ∀ (l : List (InfoHash × TorrentControl)) (h' : InfoHash) (ctrl' : TorrentControl),
      (h', ctrl') ∈ (cancelLoop s name l).1.torrentControls → (h', ctrl') ∈ s.torrentControls := by
  intro l
  induction l with
  | nil => intro h' ctrl' hm; exact hm
  | cons p rest ih =>
    obtain ⟨k, ctrl⟩ := p
    intro h' ctrl' hm
    by_cases hname : ctrl.dispatcher.torrent.name = name
    · rw [cancelLoop, if_pos hname] at hm
      dsimp only at hm
      simp only [removeKey] at hm
      exact (List.mem_filter.mp hm).1
    · rw [cancelLoop, if_neg hname] at hm
      exact ih h' ctrl' hm

/-- Once a control is present and complete, no event leaves an incomplete
control stored under its infohash (the control can only stay complete or
be removed). -/
theorem complete_stays_complete (e : Event) (s : Scheduler) (h' : InfoHash)
    (hsome : (lookupCtrl s h').isSome)
    (hall : ∀ ctrl₀ : TorrentControl, (h', ctrl₀) ∈ s.torrentControls → ctrl₀.complete = true) :
    ∀ ctrl' : TorrentControl, (h', ctrl') ∈ (applyEvent e s).1.torrentControls →
      ctrl'.complete = true := by
  intro ctrl' hm
  cases e with
  | closedConn c =>
    exact hall ctrl' (by simpa [applyEvent, closedConnApply] using hm)
  | failedHandshake p h =>
    exact hall ctrl' (by simpa [applyEvent, failedHandshakeApply] using hm)
  | incomingHandshake pc =>
    revert hm
    simp only [applyEvent, incomingHandshakeApply]
    cases hap : s.connState.addPending s.config s.now pc.peerID pc.infoHash with
    | error e' => intro hm; exact hall ctrl' hm
    | ok cs => intro hm; exact hall ctrl' hm
  | announceResponse h peers =>
    revert hm
    simp only [applyEvent, announceResponseApply]
    cases hl : lookupCtrl s h with
    | none => intro hm; exact hall ctrl' hm
    | some ctrl =>
      dsimp only
      by_cases hc : ctrl.complete = true
      · simp only [hc, if_true]
        intro hm; exact hall ctrl' hm
      · have hcf : ctrl.complete = false := Bool.eq_false_iff.mpr hc
        simp only [hcf, Bool.false_eq_true, if_false]
        intro hm
        rw [announceLoop_controls] at hm
        exact hall ctrl' hm
  | newTorrent t errc =>
    revert hm
    simp only [applyEvent, newTorrentApply]
    cases hl : lookupCtrl s t.infoHash with
    | some ctrl =>
      dsimp only
      by_cases hc : ctrl.complete = true
      · simp only [hc, if_true]
        intro hm; exact hall ctrl' hm
      · have hcf : ctrl.complete = false := Bool.eq_false_iff.mpr hc
        simp only [hcf, Bool.false_eq_true, if_false]
        intro hm
        simp only [updateCtrl] at hm
        rcases mem_map_update _ _ _ _ _ hm with hmem | ⟨hkey, _⟩
        · exact hall ctrl' hmem
        · subst hkey
          exact absurd (hall ctrl (alookup_mem _ _ _ hl)) hc
    | none =>
      dsimp only
      have hne : h' ≠ t.infoHash := by
        intro heq
        rw [heq, hl] at hsome
        simp at hsome
      simp only [initTorrentControl, updateCtrl]
      try dsimp only
      intro hm
      rcases mem_map_update _ _ _ _ _ hm with hmem | ⟨hkey, _⟩
      · rcases List.mem_append.mp hmem with hmem' | hmem''
        · exact hall ctrl' hmem'
        · simp at hmem''
          exact absurd hmem''.1 hne
      · exact absurd hkey hne
  | completedDispatcher d =>
    revert hm
    simp only [applyEvent, completedDispatcherApply]
    cases hl : lookupCtrl { s with announceQueue := s.announceQueue.done d.id } d.torrent.infoHash with
    | none => intro hm; exact hall ctrl' hm
    | some ctrl =>
      intro hm
      simp only [updateCtrl] at hm
      rcases mem_map_update _ _ _ _ _ hm with hmem | ⟨_, hval⟩
      · exact hall ctrl' hmem
      · rw [hval]
  | preemptionTick =>
    have hm' : (h', ctrl') ∈ s.torrentControls.filter (fun p => !seederExpired s p.2) := by
      simpa [applyEvent, preemptionTickApply] using hm
    exact hall ctrl' (List.mem_filter.mp hm').1
  | cancelTorrent name =>
    refine hall ctrl' (cancelLoop_controls_subset s name s.torrentControls h' ctrl' ?_)
    simpa [applyEvent, cancelTorrentApply] using hm

/-- C5 (amended).  An announce response that finds a complete control only
marks the dispatcher ready — no pending connection is added and no
outbound handshake is spawned; a `completedDispatcher` event turns the
stored control's flag on; and once a stored control is complete, no event
stores an incomplete control under that infohash (it can only be removed —
after which a `newTorrent` event may re-create it incomplete, as the
counterexample shows). -/
theorem announce_complete_no_new_conns (s : Scheduler) (h : InfoHash)
    (peers : List PeerInfo) (ctrl : TorrentControl)
    (h1 : lookupCtrl s h = some ctrl) (h2 : ctrl.complete = true) :
    applyEvent (Event.announceResponse h peers) s
      = ({ s with announceQueue := s.announceQueue.markReady ctrl.dispatcher.id }, [])
    ∧ (∀ d : Dispatcher,
        lookupCtrl (applyEvent (Event.completedDispatcher d) s).1 d.torrent.infoHash
          = (lookupCtrl s d.torrent.infoHash).map (fun c0 => { c0 with complete := true }))
    ∧ (∀ (e : Event) (s' : Scheduler) (h' : InfoHash),
        (lookupCtrl s' h').isSome →
        (∀ ctrl₀ : TorrentControl, (h', ctrl₀) ∈ s'.torrentControls → ctrl₀.complete = true) →
        ∀ ctrl' : TorrentControl, (h', ctrl') ∈ (applyEvent e s').1.torrentControls →
          ctrl'.complete = true) := by
  refine ⟨?_, ?_, ?_⟩
  · simp [applyEvent, announceResponseApply, h1, h2]
  · intro d
    simp only [applyEvent, completedDispatcherApply]
    cases hl : lookupCtrl { s with announceQueue := s.announceQueue.done d.id } d.torrent.infoHash with
    | none =>
      have hl' : alookup d.torrent.infoHash s.torrentControls = none := hl
      simp only [lookupCtrl]
      rw [hl']
      rfl
    | some ctrl1 =>
      have hl' : alookup d.torrent.infoHash s.torrentControls = some ctrl1 := hl
      simp only [lookupCtrl, updateCtrl]
      rw [alookup_map_update, hl']
      rfl
  · exact complete_stays_complete

/-- C5 witness: a concrete complete control and announce response. -/
theorem announce_complete_no_new_conns_witness :
    lookupCtrl sC 1 = some ctrlC ∧ ctrlC.complete = true ∧
      applyEvent (Event.announceResponse 1 [p1]) sC
        = ({ sC with announceQueue := sC.announceQueue.markReady ctrlC.dispatcher.id }, []) :=
  ⟨rfl, rfl, (announce_complete_no_new_conns sC 1 [p1] ctrlC rfl rfl).1⟩

end Kraken
